import Mathlib

/-!
Verification of the Statement-of-Work Scouter search pipeline.

This development shallowly embeds the core logic of the repository:

* `src/app/api/search/route.ts` — the search endpoint: `buildSearchQueries`,
  `searchGitHub` (per-query fetch + first-seen deduplication by repo id),
  `analyzeCoverage` (coverage scoring with a fixed fallback), and the
  filter / stable sort / truncate steps of `POST`.
* `src/unnamed/part_002` — the repository-detail endpoint: `fetchReadme`,
  `generateDetailedAnalysis`, health classification and `POST` assembly.

External effects (the GitHub API, the model API) are modelled by passing
their outcomes as explicit parameters: a fallible call becomes an
`Except Unit _` argument, and a model call becomes a `ModelOutcome` value
recording whether the call threw, whether `JSON.parse` of its text threw,
whether the parsed value was `null` (so that property access throws), or
the parsed object with the fields the route reads (a field that is absent,
`undefined` or `null` in the JSON is `none`).  JavaScript numbers that the
routes treat as integers are modelled as `Int`; millisecond epoch
timestamps stand for the ISO date strings consumed via
`new Date(s).getTime()`.
-/

/-- The shape of the `analysis` object consumed by the search route
(produced upstream by the SOW-analysis endpoint). -/
structure RequirementProfile where
  projectType : String
  deliverables : List String
  technicalRequirements : List String
  integrations : List String
deriving DecidableEq

/-- The per-question answers forwarded by the client; the search route
passes them to `buildSearchQueries`, which never reads them. -/
abbrev AnswerSet := List (String × String)

/-- A repository record as returned by the GitHub search API, restricted to
the fields the search route reads. -/
structure GitHubRepo where
  id : Nat
  owner_login : String
  name : String
  full_name : String
  description : Option String
  stargazers_count : Nat
  language : Option String
  updated_at : Int
  html_url : String
deriving DecidableEq

/-- The coverage object `analyzeCoverage` returns: either coerced model
output or the fixed fallback. -/
structure CoverageResult where
  coveragePercentage : Int
  covers : List String
  gaps : List String
deriving DecidableEq

/-- `analyzedRepos` entries in the search `POST`: candidate fields plus the
spread `CoverageResult` fields. -/
structure RankedRepository where
  id : Nat
  owner : String
  name : String
  fullName : String
  description : Option String
  stars : Nat
  language : Option String
  lastActivity : Int
  url : String
  coveragePercentage : Int
  covers : List String
  gaps : List String
deriving DecidableEq

/-- Outcome of `JSON.parse` on the model's text plus the subsequent field
reads: `parseError` when `JSON.parse` throws (non-JSON text), `nullValue`
when it yields `null` (reading a property then throws), `value` for any
other parsed value with the fields the route reads. -/
inductive ParseResult (α : Type) where
  | parseError
  | nullValue
  | value (a : α)
deriving DecidableEq

/-- Outcome of one structured-output model call: the request itself threw
(network/API error), or text came back and parsed as recorded. -/
inductive ModelOutcome (α : Type) where
  | threw
  | returned (r : ParseResult α)
deriving DecidableEq

/-- `ModelOutcome.failed o` holds exactly when the call threw, its text was
not JSON, or the parsed value was `null` — the situations in which the
route's `catch` handler runs. -/
def ModelOutcome.failed {α : Type} : ModelOutcome α → Prop
  | .threw => True
  | .returned .parseError => True
  | .returned .nullValue => True
  | .returned (.value _) => False

instance {α : Type} (o : ModelOutcome α) : Decidable o.failed := by
  cases o with
  | threw => exact isTrue trivial
  | returned r => cases r with
    | parseError => exact isTrue trivial
    | nullValue => exact isTrue trivial
    | value a => exact isFalse (fun h => h)

/-- JavaScript `x || d` for a possibly-absent string: `undefined`, `null`
and the empty string are falsy. -/
def jsOrString (o : Option String) (d : String) : String :=
  match o with
  | none => d
  | some s => if s = "" then d else s

/-- JavaScript `s.split(' ')`: split on the single space character, keeping
empty pieces between consecutive separators (`"a  b".split(' ')` is
`["a", "", "b"]`, `"".split(' ')` is `[""]`).  Written as structural
recursion over the character list so the kernel can evaluate it. -/
def splitSpaceAux : List Char → List Char → List String
  | [], cur => [String.mk cur.reverse]
  | c :: rest, cur =>
    if c = ' ' then String.mk cur.reverse :: splitSpaceAux rest []
    else splitSpaceAux rest (c :: cur)

/-- JavaScript `s.split(' ')` on a whole string. -/
def jsSplitSpace (s : String) : List String := splitSpaceAux s.data []

/-- JavaScript `s.toLowerCase()` (character-wise lowering; the inputs here
are ASCII). -/
def jsToLower (s : String) : String := String.mk (s.data.map Char.toLower)

/-- `buildSearchQueries` tokenization: `s.toLowerCase().split(' ')`
followed by `.filter(word => word.length > 3)`. -/
def termsOf (s : String) : List String :=
  (jsSplitSpace (jsToLower s)).filter (fun w => decide (w.length > 3))

/-- `[...new Set(l)]` on strings: deduplicate keeping first occurrences in
order (the accumulated list plays the role of the `Set`). -/
def dedupFirst (l : List String) : List String :=
  l.foldl (fun acc w => if w ∈ acc then acc else acc ++ [w]) []

/-- `buildSearchQueries` from `src/app/api/search/route.ts` (lines 88–112).
`mainTerms[0]` on an empty `mainTerms` is `undefined` in JavaScript, and a
template literal stringifies it as `"undefined"` — `mainHead` models
exactly that. -/
def buildSearchQueries (analysis : RequirementProfile)
    (questionAnswers : AnswerSet) (additionalContext : String) : List String :=
  let projectTerms := termsOf analysis.projectType
  let deliverableTerms := termsOf (String.intercalate " " analysis.deliverables)
  let mainTerms := dedupFirst (projectTerms.take 3 ++ deliverableTerms.take 2)
  let mainHead := match mainTerms with
    | [] => "undefined"
    | t :: _ => t
  let queries := [String.intercalate " " mainTerms]
  let queries := match analysis.technicalRequirements with
    | [] => queries
    | t :: _ => queries ++ [mainHead ++ " " ++ t]
  let queries := match analysis.integrations with
    | [] => queries
    | i :: _ => queries ++ [mainHead ++ " " ++ i]
  queries.take 3

/-- The inner loop of `searchGitHub`: fold one query's result items into the
accumulated unique list.  The source keeps a separate `seenRepoIds` set, but
adds an id to it exactly when it appends the repo to `allRepos`, so the set
always equals the ids of the accumulator. -/
def dedupInto (acc : List GitHubRepo) (items : List GitHubRepo) : List GitHubRepo :=
  items.foldl (fun acc repo => if repo.id ∈ acc.map (·.id) then acc else acc ++ [repo]) acc

/-- The Deduplicator: merge per-query result sequences (in query order,
within-query order) keeping each repo id's first occurrence only
(`src/app/api/search/route.ts` lines 114–140, fetch outcomes abstracted
away). -/
def deduplicate (results : List (List GitHubRepo)) : List GitHubRepo :=
  results.foldl dedupInto []

/-- `searchGitHub` (lines 114–140): iterate the queries, treat a failed
search call as zero results for that query, and deduplicate by repo id on
the fly.  The gateway is modelled by `respond`, mapping a query to its
call's outcome. -/
def searchGitHub (queries : List String)
    (respond : String → Except Unit (List GitHubRepo)) : List GitHubRepo :=
  queries.foldl
    (fun acc query =>
      match respond query with
      | .error _ => acc
      | .ok items => dedupInto acc items)
    []

/-- The JSON object shape `analyzeCoverage` reads off the parsed model
output.  `coveragePercentage` is `none` when the field is absent, `null`
or otherwise falsy, mirroring `coverage.coveragePercentage || 0`; the list
fields are `none` when absent or `null` (an array, even empty, is truthy
in JavaScript, so `covers || []` only replaces a missing field). -/
structure CoverageJson where
  coveragePercentage : Option Int
  covers : Option (List String)
  gaps : Option (List String)
deriving DecidableEq

/-- The fixed fallback returned by `analyzeCoverage`'s `catch` handler. -/
def fallbackCoverage : CoverageResult :=
  { coveragePercentage := 30
    covers := ["Similar functionality detected"]
    gaps := ["Detailed analysis unavailable"] }

/-- `analyzeCoverage` (lines 142–204): build the prompt from the repo and
the requirement profile, call the model, parse the reply; on any throw —
network error, non-JSON text, or a `null` parse result (whose property
reads throw) — return `fallbackCoverage`.  The function is total: no
outcome escapes the `try`/`catch`. -/
def analyzeCoverage (repo : GitHubRepo) (analysis : RequirementProfile)
    (outcome : ModelOutcome CoverageJson) : CoverageResult :=
  match outcome with
  | .threw => fallbackCoverage
  | .returned .parseError => fallbackCoverage
  | .returned .nullValue => fallbackCoverage
  | .returned (.value coverage) =>
    { coveragePercentage := coverage.coveragePercentage.getD 0
      covers := coverage.covers.getD []
      gaps := coverage.gaps.getD [] }

/-- Build one `analyzedRepos` entry of the search `POST` (lines 42–53):
the candidate's fields with the `CoverageResult` fields spread in. -/
def toRanked (repo : GitHubRepo) (coverage : CoverageResult) : RankedRepository :=
  { id := repo.id
    owner := repo.owner_login
    name := repo.name
    fullName := repo.full_name
    description := repo.description
    stars := repo.stargazers_count
    language := repo.language
    lastActivity := repo.updated_at
    url := repo.html_url
    coveragePercentage := coverage.coveragePercentage
    covers := coverage.covers
    gaps := coverage.gaps }

/-- The filter predicate of the search `POST` (lines 59–64): drop a repo
whose `covers` is empty, or whose only cover is the generic fallback
marker. -/
def keepRelevant (repo : RankedRepository) : Bool :=
  match repo.covers with
  | [] => false
  | [c] => c ≠ "Similar functionality detected"
  | _ => true

/-- The sort comparator of line 67, `(a, b) => b.coveragePercentage -
a.coveragePercentage`, as the Boolean relation a stable sort keeps `a`
before `b` under: the comparator is non-positive iff `b`'s percentage is at
most `a`'s. -/
def coverageGE (a b : RankedRepository) : Bool :=
  decide (b.coveragePercentage ≤ a.coveragePercentage)

/-- Lines 57–71 of the search `POST`: filter out irrelevant/fallback-scored
repos, stable-sort by coverage percentage descending (JavaScript
`Array.prototype.sort` is stable), and truncate to the first 10. -/
def searchResults (analyzedRepos : List RankedRepository) : List RankedRepository :=
  (((analyzedRepos.filter keepRelevant).mergeSort coverageGE).take 10)

/-- Repository metadata as returned by `octokit.repos.get`, restricted to
the fields the detail route reads.  `updated_at` and `pushed_at` are
millisecond epoch values standing for the API's ISO strings as consumed by
`new Date(s).getTime()`. -/
structure RepoMeta where
  full_name : String
  description : Option String
  html_url : String
  stargazers_count : Nat
  forks_count : Nat
  open_issues_count : Nat
  language : Option String
  updated_at : Int
  pushed_at : Int
deriving DecidableEq

/-- Health classification of the detail route. -/
inductive Health where
  | active
  | stale
  | abandoned
deriving DecidableEq

/-- `Math.floor((Date.now() - new Date(ts).getTime()) / (1000*60*60*24))`
(`src/unnamed/part_002` lines 34–36): floored real division is `Int.fdiv`
on millisecond integers. -/
def daysSince (now ts : Int) : Int :=
  (now - ts).fdiv 86400000

/-- Lines 38–43: `abandoned` past 365 days, `stale` past 90, else
`active`. -/
def healthOf (daysSinceUpdate : Int) : Health :=
  if daysSinceUpdate > 365 then .abandoned
  else if daysSinceUpdate > 90 then .stale
  else .active

/-- The `fitAnalysis` object assembled by `generateDetailedAnalysis`. -/
structure FitAnalysis where
  covers : List String
  gaps : List String
  timeSaved : String
  recommendedModifications : List String
  risks : List String
deriving DecidableEq

/-- The JSON shape `generateDetailedAnalysis` reads off the parsed model
output; each field is `none` when absent or `null`
(`result.fitAnalysis?.covers` etc. use optional chaining). -/
structure FitJson where
  covers : Option (List String)
  gaps : Option (List String)
  timeSaved : Option String
  recommendedModifications : Option (List String)
  risks : Option (List String)
deriving DecidableEq

/-- Top level of the detail model reply. -/
structure DetailJson where
  readmeSummary : Option String
  fitAnalysis : Option FitJson
deriving DecidableEq

/-- The detail object returned by the detail route's `POST`. -/
structure RepoDetail where
  owner : String
  name : String
  fullName : String
  description : Option String
  url : String
  stars : Nat
  forks : Nat
  openIssues : Nat
  contributors : Nat
  lastCommit : Int
  healthStatus : Health
  readmeSummary : String
  fitAnalysis : FitAnalysis
deriving DecidableEq

/-- The fixed fallback of `generateDetailedAnalysis`'s `catch` handler
(lines 182–194). -/
def fallbackDetail : String × FitAnalysis :=
  ("Analysis unavailable",
   { covers := ["Repository features detected"]
     gaps := ["Detailed analysis unavailable"]
     timeSaved := "Unable to estimate"
     recommendedModifications := ["Further analysis needed"]
     risks := ["Analysis incomplete"] })

/-- `fetchReadme` (lines 86–102): on success decode and keep the first 3000
characters; on any failure return the fixed placeholder.  The outcome
parameter carries the already base64-decoded content of a successful
call. -/
def fetchReadme (outcome : Except Unit String) : String :=
  match outcome with
  | .ok content => content.take 3000
  | .error _ => "README not available"

/-- `generateDetailedAnalysis` (lines 104–195): build the prompt from the
metadata, README excerpt and requirement profile, call the model and parse;
on any throw return `fallbackDetail`, otherwise coerce the parsed fields
(`|| d` defaults, with the empty string falsy for the string fields). -/
def generateDetailedAnalysis (repo : RepoMeta) (readme : String)
    (analysis : RequirementProfile) (outcome : ModelOutcome DetailJson) :
    String × FitAnalysis :=
  match outcome with
  | .threw => fallbackDetail
  | .returned .parseError => fallbackDetail
  | .returned .nullValue => fallbackDetail
  | .returned (.value result) =>
    ( jsOrString result.readmeSummary "No summary available",
      { covers := (result.fitAnalysis.bind (·.covers)).getD []
        gaps := (result.fitAnalysis.bind (·.gaps)).getD []
        timeSaved := jsOrString (result.fitAnalysis.bind (·.timeSaved)) "Unable to estimate"
        recommendedModifications := (result.fitAnalysis.bind (·.recommendedModifications)).getD []
        risks := (result.fitAnalysis.bind (·.risks)).getD [] } )

/-- The detail route's `POST` (`src/unnamed/part_002` lines 13–84).  The
three concurrent fetches are passed as outcomes; `fetchReadme` absorbs its
own failure, while a failed metadata or contributor fetch rejects the
`Promise.all` and lands in the outer `catch` (an error response with no
detail).  The initial guard models `if (!owner || !name)` (empty string is
the falsy string). -/
def detailPOST (owner name : String) (analysis : RequirementProfile)
    (metaOutcome : Except Unit RepoMeta)
    (contribOutcome : Except Unit (List String))
    (readmeOutcome : Except Unit String)
    (modelOutcome : ModelOutcome DetailJson)
    (now : Int) : Except Unit RepoDetail :=
  if owner = "" ∨ name = "" then .error ()
  else
    match metaOutcome, contribOutcome with
    | .ok repo, .ok contributorsData =>
      let readmeData := fetchReadme readmeOutcome
      let daysSinceUpdate := daysSince now repo.updated_at
      let healthStatus := healthOf daysSinceUpdate
      let aiAnalysis := generateDetailedAnalysis repo readmeData analysis modelOutcome
      .ok
        { owner := owner
          name := name
          fullName := repo.full_name
          description := repo.description
          url := repo.html_url
          stars := repo.stargazers_count
          forks := repo.forks_count
          openIssues := repo.open_issues_count
          contributors := contributorsData.length
          lastCommit := repo.pushed_at
          healthStatus := healthStatus
          readmeSummary := aiAnalysis.1
          fitAnalysis := aiAnalysis.2 }
    | _, _ => .error ()



/-- Whether a modelled external call (or the route as a whole) succeeded. -/
def exceptOk {ε α : Type} : Except ε α → Bool
  | .ok _ => true
  | .error _ => false

/-- Recursive characterization of the dedup loop, used in proofs: process
the items in order with an explicit seen set, keeping an item exactly when
its id has not been seen.  `dedupInto acc l = acc ++ keepFirst seen l`
whenever `seen` holds exactly the ids of `acc`. -/
def keepFirst (seen : List Nat) : List GitHubRepo → List GitHubRepo
  | [] => []
  | r :: rest =>
    if r.id ∈ seen then keepFirst seen rest
    else r :: keepFirst (r.id :: seen) rest

/-! ## Claim theorems -/

/-- C1: for every candidate repository and requirement profile, if the
coverage model call throws or its text output fails to parse as JSON,
`analyzeCoverage` returns exactly the fixed fallback
`{coveragePercentage := 30, covers := ["Similar functionality detected"],
gaps := ["Detailed analysis unavailable"]}`; totality of the embedded
function reflects that the route's catch-all handler lets no exception
reach the caller. -/
theorem analyzeCoverage_total_failure_fallback (repo : GitHubRepo)
    (analysis : RequirementProfile) (outcome : ModelOutcome CoverageJson)
    (h : outcome = .threw ∨ outcome = .returned .parseError) :
    analyzeCoverage repo analysis outcome = fallbackCoverage := by
  rcases h with h | h <;> subst h <;> rfl

theorem analyzeCoverage_total_failure_fallback_witness :
    analyzeCoverage ⟨1, "octo", "repo", "octo/repo", none, 5, none, 0, "u"⟩
        ⟨"booking system", ["ui"], [], []⟩ .threw = fallbackCoverage :=
  analyzeCoverage_total_failure_fallback _ _ _ (Or.inl rfl)

/-- C4: `buildSearchQueries` returns at most 3 queries for every input, and
exactly 1 when `technicalRequirements` and `integrations` are both
empty. -/
theorem buildSearchQueries_bound (analysis : RequirementProfile)
    (questionAnswers : AnswerSet) (additionalContext : String) :
    (buildSearchQueries analysis questionAnswers additionalContext).length ≤ 3 ∧
    (analysis.technicalRequirements = [] → analysis.integrations = [] →
      (buildSearchQueries analysis questionAnswers additionalContext).length = 1) := by
  obtain ⟨pt, dl, tr, ig⟩ := analysis
  constructor
  · cases tr <;> cases ig <;> simp [buildSearchQueries]
  · intro h1 h2
    simp only at h1 h2
    subst h1 h2
    simp [buildSearchQueries]

theorem buildSearchQueries_bound_witness :
    (buildSearchQueries
        ⟨"Appointment scheduling system", ["Booking UI", "SMS reminders"], [], []⟩
        [] "").length = 1 :=
  (buildSearchQueries_bound
      ⟨"Appointment scheduling system", ["Booking UI", "SMS reminders"], [], []⟩
      [] "").2 rfl rfl

/-- C5 (code behavior at the failing input): the successful-parse path of
`analyzeCoverage` performs no validation or clamping — a model reply whose
`coveragePercentage` is 150 is attached verbatim, outside the 0–100 range
the claim asserts. -/
theorem analyzeCoverage_does_not_clamp :
    (analyzeCoverage ⟨1, "octo", "repo", "octo/repo", none, 5, none, 0, "u"⟩
        ⟨"booking system", ["ui"], [], []⟩
        (.returned (.value ⟨some 150, some ["a", "b"], some ["c"]⟩))).coveragePercentage
      = 150 ∧ ¬((150 : Int) ≤ 100) :=
  ⟨rfl, by decide⟩

/-- C7: the health classification satisfies the boundary cases 90 ↦ active,
91 ↦ stale, 365 ↦ stale, 366 ↦ abandoned, and in general d > 365 is
abandoned, 90 < d ≤ 365 is stale, d ≤ 90 is active. -/
theorem healthOf_boundaries :
    healthOf 90 = .active ∧ healthOf 91 = .stale ∧ healthOf 365 = .stale ∧
    healthOf 366 = .abandoned ∧
    ∀ d : Int,
      (365 < d → healthOf d = .abandoned) ∧
      (90 < d → d ≤ 365 → healthOf d = .stale) ∧
      (d ≤ 90 → healthOf d = .active) := by
  refine ⟨by decide, by decide, by decide, by decide, fun d => ⟨?_, ?_, ?_⟩⟩
  · intro h
    unfold healthOf
    rw [if_pos (by omega)]
  · intro h1 h2
    unfold healthOf
    rw [if_neg (by omega), if_pos (by omega)]
  · intro h
    unfold healthOf
    rw [if_neg (by omega), if_neg (by omega)]

theorem healthOf_boundaries_witness :
    (365 : Int) < 400 ∧ healthOf 400 = .abandoned :=
  ⟨by decide, (healthOf_boundaries.2.2.2.2 400).1 (by decide)⟩

/-- C10: on a requirement profile whose `projectType` and `deliverables`
contain no whitespace-separated token longer than 3 characters but whose
`technicalRequirements` list is non-empty, the candidate-term list is
empty, `mainTerms[0]` is JavaScript `undefined`, and the second query is
the literal text "undefined " followed by the first technical
requirement. -/
theorem buildSearchQueries_undefined_interpolation :
    termsOf "ui ux app" = [] ∧
    termsOf (String.intercalate " " ["nav bar"]) = [] ∧
    buildSearchQueries ⟨"ui ux app", ["nav bar"], ["React"], []⟩ [] "" =
      ["", "undefined " ++ "React"] := by
  refine ⟨by decide, by decide, by decide⟩

/-- The comparator of line 67 is transitive, as required for
`List.sorted_mergeSort`. -/
theorem coverageGE_trans : ∀ a b c : RankedRepository,
    coverageGE a b → coverageGE b c → coverageGE a c := by
  intro a b c hab hbc
  simp only [coverageGE, decide_eq_true_eq] at *
  omega

/-- The comparator of line 67 is total, as required for
`List.sorted_mergeSort`. -/
theorem coverageGE_total : ∀ a b : RankedRepository,
    coverageGE a b || coverageGE b a := by
  intro a b
  simp only [coverageGE, Bool.or_eq_true, decide_eq_true_eq]
  omega

/-- C2: a repository whose `covers` list is empty, or is exactly the
single-item fallback marker, never appears in the final output of the
search operation — the filter of lines 59–64 removes it before the sort
and truncation. -/
theorem searchResults_excludes_fallback (analyzedRepos : List RankedRepository)
    (r : RankedRepository)
    (h : r.covers = [] ∨ r.covers = ["Similar functionality detected"]) :
    r ∉ searchResults analyzedRepos := by
  intro hmem
  unfold searchResults at hmem
  have h1 : r ∈ (analyzedRepos.filter keepRelevant).mergeSort coverageGE :=
    List.mem_of_mem_take hmem
  rw [List.mem_mergeSort] at h1
  have h2 := List.of_mem_filter h1
  rcases h with hc | hc <;> simp [keepRelevant, hc] at h2

theorem searchResults_excludes_fallback_witness :
    (⟨1, "octo", "repo", "octo/repo", none, 5, none, 0, "u", 30,
        ["Similar functionality detected"], ["Detailed analysis unavailable"]⟩ :
      RankedRepository) ∉
      searchResults
        [⟨1, "octo", "repo", "octo/repo", none, 5, none, 0, "u", 30,
            ["Similar functionality detected"], ["Detailed analysis unavailable"]⟩,
         ⟨2, "o2", "r2", "o2/r2", none, 9, none, 0, "u2", 80, ["a", "b"], ["c"]⟩] :=
  searchResults_excludes_fallback _ _ (Or.inr rfl)

/-- C3: the final result list of the search operation is non-increasing in
`coveragePercentage`; the items of any fixed score form a subsequence of
the input's items of that score (stable sort: equal-score items retain
their relative input order); and the list has at most 10 entries. -/
theorem searchResults_sorted_stable_bounded (analyzedRepos : List RankedRepository) :
    (searchResults analyzedRepos).Pairwise
        (fun a b => b.coveragePercentage ≤ a.coveragePercentage) ∧
    (∀ p : Int,
      List.Sublist
        ((searchResults analyzedRepos).filter (fun r => decide (r.coveragePercentage = p)))
        (analyzedRepos.filter (fun r => decide (r.coveragePercentage = p)))) ∧
    (searchResults analyzedRepos).length ≤ 10 := by
  refine ⟨?_, ?_, ?_⟩
  · have hs := List.sorted_mergeSort coverageGE_trans coverageGE_total
      (analyzedRepos.filter keepRelevant)
    have hs2 : (searchResults analyzedRepos).Pairwise (fun a b => coverageGE a b = true) :=
      hs.sublist (List.take_sublist 10 _)
    exact hs2.imp (fun h => by simpa [coverageGE, decide_eq_true_eq] using h)
  · intro p
    set l := analyzedRepos.filter keepRelevant with hl
    set q : RankedRepository → Bool := fun r => decide (r.coveragePercentage = p) with hq
    have hpw : (l.filter q).Pairwise (fun a b => coverageGE a b = true) := by
      apply List.pairwise_of_forall_mem_list
      intro a ha b hb
      have ha2 := List.of_mem_filter ha
      have hb2 := List.of_mem_filter hb
      simp only [hq, decide_eq_true_eq] at ha2 hb2
      simp [coverageGE, ha2, hb2]
    have hsub : List.Sublist (l.filter q) (l.mergeSort coverageGE) :=
      List.sublist_mergeSort coverageGE_trans coverageGE_total hpw (List.filter_sublist l)
    have h2 : List.Sublist ((l.filter q).filter q) ((l.mergeSort coverageGE).filter q) :=
      hsub.filter q
    have h3 : (l.filter q).filter q = l.filter q := by
      simp [List.filter_filter]
    rw [h3] at h2
    have h4 : ((l.mergeSort coverageGE).filter q).length = (l.filter q).length :=
      ((List.mergeSort_perm l coverageGE).filter q).length_eq
    have h5 : l.filter q = (l.mergeSort coverageGE).filter q :=
      h2.eq_of_length h4.symm
    have h6 : List.Sublist ((searchResults analyzedRepos).filter q)
        ((l.mergeSort coverageGE).filter q) :=
      (List.take_sublist 10 _).filter q
    rw [← h5] at h6
    exact h6.trans ((List.filter_sublist analyzedRepos).filter q)
  · exact List.length_take_le 10 _

/-- C6 counterexample: at a concrete input where both timestamps are
available — `updated_at` 400 days before now, `pushed_at` 10 days before
now — the detail route classifies the repository `abandoned`, while the
pushed-at-based classification the claim asserts would be `active`: the
route computes health from `updated_at`, not `pushed_at`. -/
theorem detailPOST_health_not_from_pushed_at :
    (detailPOST "octo" "repo" ⟨"booking", ["ui"], [], []⟩
        (.ok ⟨"octo/repo", none, "u", 1, 2, 3, none, 0, 33696000000⟩)
        (.ok ["a"]) (.ok "readme") .threw 34560000000).map (·.healthStatus) =
      Except.ok Health.abandoned ∧
    healthOf (daysSince 34560000000 33696000000) = Health.active :=
  ⟨rfl, by decide⟩

/-- C6 amended: on a successful detail request, `healthStatus` is computed
from the days elapsed since `updated_at` (the last-metadata-update
timestamp), even though `pushed_at` is available; `pushed_at` is only
passed through as the `lastCommit` field. -/
theorem detailPOST_health_from_updated_at (owner name : String)
    (analysis : RequirementProfile) (meta : RepoMeta) (contribs : List String)
    (readmeOutcome : Except Unit String) (modelOutcome : ModelOutcome DetailJson)
    (now : Int) (howner : owner ≠ "") (hname : name ≠ "") :
    (detailPOST owner name analysis (.ok meta) (.ok contribs) readmeOutcome
        modelOutcome now).map (·.healthStatus) =
      .ok (healthOf (daysSince now meta.updated_at)) ∧
    (detailPOST owner name analysis (.ok meta) (.ok contribs) readmeOutcome
        modelOutcome now).map (·.lastCommit) = .ok meta.pushed_at := by
  unfold detailPOST
  rw [if_neg (by simp [howner, hname])]
  exact ⟨rfl, rfl⟩

theorem detailPOST_health_from_updated_at_witness :
    (detailPOST "octo" "repo" ⟨"booking", ["ui"], [], []⟩
        (.ok ⟨"octo/repo", none, "u", 1, 2, 3, none, 8640000000, 17280000000⟩)
        (.ok []) (.error ()) .threw 34560000000).map (·.healthStatus) =
      .ok (healthOf (daysSince 34560000000
        (⟨"octo/repo", none, "u", 1, 2, 3, none, 8640000000, 17280000000⟩ :
          RepoMeta).updated_at)) :=
  (detailPOST_health_from_updated_at "octo" "repo" ⟨"booking", ["ui"], [], []⟩
      ⟨"octo/repo", none, "u", 1, 2, 3, none, 8640000000, 17280000000⟩ []
      (.error ()) .threw 34560000000 (by decide) (by decide)).1

/-- C8: on a well-formed detail request, the route returns an error result
exactly when the repository-metadata or the contributor fetch fails; a
README-fetch failure is absorbed by substituting the fixed placeholder
"README not available"; and a model-analysis failure is absorbed by the
fixed fallback detail object while the route still returns a successful
RepositoryDetail. -/
theorem detailPOST_failure_boundaries (owner name : String)
    (analysis : RequirementProfile)
    (metaOutcome : Except Unit RepoMeta) (contribOutcome : Except Unit (List String))
    (readmeOutcome : Except Unit String) (modelOutcome : ModelOutcome DetailJson)
    (now : Int) (howner : owner ≠ "") (hname : name ≠ "") :
    (exceptOk (detailPOST owner name analysis metaOutcome contribOutcome readmeOutcome
        modelOutcome now) = (exceptOk metaOutcome && exceptOk contribOutcome)) ∧
    fetchReadme (.error ()) = "README not available" ∧
    (modelOutcome.failed → ∀ (meta : RepoMeta) (contribs : List String),
      (detailPOST owner name analysis (.ok meta) (.ok contribs) readmeOutcome
          modelOutcome now).map (fun d => (d.readmeSummary, d.fitAnalysis)) =
        .ok fallbackDetail) := by
  refine ⟨?_, rfl, ?_⟩
  · unfold detailPOST
    rw [if_neg (by simp [howner, hname])]
    cases metaOutcome <;> cases contribOutcome <;> rfl
  · intro hfail meta contribs
    unfold detailPOST
    rw [if_neg (by simp [howner, hname])]
    cases modelOutcome with
    | threw => rfl
    | returned r =>
      cases r with
      | parseError => rfl
      | nullValue => rfl
      | value a => exact hfail.elim

theorem detailPOST_failure_boundaries_witness :
    (detailPOST "octo" "repo" ⟨"booking", ["ui"], [], []⟩
        (.ok ⟨"octo/repo", none, "u", 1, 2, 3, none, 0, 0⟩) (.ok [])
        (.error ()) .threw 0).map (fun d => (d.readmeSummary, d.fitAnalysis)) =
      .ok fallbackDetail :=
  (detailPOST_failure_boundaries "octo" "repo" ⟨"booking", ["ui"], [], []⟩
      (.ok ⟨"octo/repo", none, "u", 1, 2, 3, none, 0, 0⟩) (.ok []) (.error ())
      .threw 0 (by decide) (by decide)).2.2 trivial
      ⟨"octo/repo", none, "u", 1, 2, 3, none, 0, 0⟩ []

/-- The fold of the dedup loop equals the recursive first-seen
characterization whenever the seen set holds exactly the accumulated
ids. -/
theorem dedupInto_eq_keepFirst (l : List GitHubRepo) :
    ∀ (acc : List GitHubRepo) (seen : List Nat),
      (∀ i : Nat, i ∈ seen ↔ i ∈ acc.map (·.id)) →
      dedupInto acc l = acc ++ keepFirst seen l := by
  induction l with
  | nil => intro acc seen h; simp [dedupInto, keepFirst]
  | cons r rest ih =>
    intro acc seen h
    show List.foldl _ _ (r :: rest) = _
    rw [List.foldl_cons]
    by_cases hid : r.id ∈ acc.map (·.id)
    · rw [if_pos hid]
      have hseen : r.id ∈ seen := (h r.id).mpr hid
      rw [keepFirst, if_pos hseen]
      exact ih acc seen h
    · rw [if_neg hid]
      have hseen : r.id ∉ seen := fun hc => hid ((h r.id).mp hc)
      rw [keepFirst, if_neg hseen]
      have h2 : ∀ i : Nat, i ∈ (r.id :: seen) ↔ i ∈ (acc ++ [r]).map (·.id) := by
        intro i
        simp only [List.mem_cons, List.map_append, List.mem_append, h i,
          List.map_cons, List.map_nil, List.mem_singleton]
        tauto
      have := ih (acc ++ [r]) (r.id :: seen) h2
      show dedupInto (acc ++ [r]) rest = _
      rw [this, List.append_assoc]
      rfl

/-- `deduplicate` is the first-seen filter of the flattened input (query
order, within-query order). -/
theorem deduplicate_eq_keepFirst (rss : List (List GitHubRepo)) :
    deduplicate rss = keepFirst [] rss.flatten := by
  have h1 : deduplicate rss = rss.flatten.foldl
      (fun acc repo => if repo.id ∈ acc.map (·.id) then acc else acc ++ [repo]) [] := by
    rw [deduplicate, List.foldl_flatten]
    rfl
  rw [h1]
  have := dedupInto_eq_keepFirst rss.flatten [] []
  simp only [dedupInto] at this
  simpa using this (by simp)

/-- The dedup output is a subsequence of its input: relative order is
preserved. -/
theorem keepFirst_sublist (l : List GitHubRepo) :
    ∀ seen, List.Sublist (keepFirst seen l) l := by
  induction l with
  | nil => intro seen; simp [keepFirst]
  | cons r rest ih =>
    intro seen
    rw [keepFirst]
    by_cases hid : r.id ∈ seen
    · rw [if_pos hid]; exact (ih seen).cons r
    · rw [if_neg hid]; exact (ih (r.id :: seen)).cons₂ r

/-- Every kept item has an id outside the initial seen set. -/
theorem keepFirst_id_not_seen (l : List GitHubRepo) :
    ∀ seen, ∀ x ∈ keepFirst seen l, x.id ∉ seen := by
  induction l with
  | nil => intro seen x hx; simp [keepFirst] at hx
  | cons r rest ih =>
    intro seen x hx
    rw [keepFirst] at hx
    by_cases hid : r.id ∈ seen
    · rw [if_pos hid] at hx; exact ih seen x hx
    · rw [if_neg hid] at hx
      rcases List.mem_cons.mp hx with h | h
      · subst h; exact hid
      · intro hc
        exact ih (r.id :: seen) x h (List.mem_cons_of_mem _ hc)

/-- No kept item carries an id that was already seen. -/
theorem keepFirst_filter_seen (l : List GitHubRepo) (seen : List Nat) (n : Nat)
    (hn : n ∈ seen) :
    (keepFirst seen l).filter (fun x => x.id == n) = [] := by
  rw [List.filter_eq_nil_iff]
  intro x hx
  simp only [beq_iff_eq]
  intro hc
  exact keepFirst_id_not_seen l seen x hx (hc ▸ hn)

/-- An id occurring in the input and not initially seen occurs exactly once
in the output. -/
theorem keepFirst_count_one (l : List GitHubRepo) :
    ∀ (seen : List Nat) (n : Nat), n ∉ seen → (∃ r ∈ l, r.id = n) →
      ((keepFirst seen l).filter (fun x => x.id == n)).length = 1 := by
  induction l with
  | nil => intro seen n _ h; simp at h
  | cons r rest ih =>
    intro seen n hn hex
    rw [keepFirst]
    by_cases hid : r.id ∈ seen
    · rw [if_pos hid]
      apply ih seen n hn
      rcases hex with ⟨r', hr', hid'⟩
      rcases List.mem_cons.mp hr' with h | h
      · subst h; exact absurd (hid' ▸ hid) hn
      · exact ⟨r', h, hid'⟩
    · rw [if_neg hid]
      by_cases hrn : r.id = n
      · rw [List.filter_cons_of_pos (by simpa using hrn)]
        rw [List.length_cons, keepFirst_filter_seen rest (r.id :: seen) n
          (by simp [hrn]), List.length_nil]
      · rw [List.filter_cons_of_neg (by simpa using hrn)]
        apply ih (r.id :: seen) n
          (by simp only [List.mem_cons, not_or]; exact ⟨fun h => hrn h.symm, hn⟩)
        rcases hex with ⟨r', hr', hid'⟩
        rcases List.mem_cons.mp hr' with h | h
        · subst h; exact absurd hid' hrn
        · exact ⟨r', h, hid'⟩

/-- The first kept item with a given unseen id is the input's first item
with that id. -/
theorem keepFirst_find? (l : List GitHubRepo) :
    ∀ (seen : List Nat) (n : Nat), n ∉ seen →
      (keepFirst seen l).find? (fun x => x.id == n) = l.find? (fun x => x.id == n) := by
  induction l with
  | nil => intro seen n _; simp [keepFirst]
  | cons r rest ih =>
    intro seen n hn
    rw [keepFirst]
    by_cases hid : r.id ∈ seen
    · rw [if_pos hid]
      have hrn : ¬(r.id = n) := fun h => hn (h ▸ hid)
      rw [List.find?_cons_of_neg _ (by simpa using hrn)]
      exact ih seen n hn
    · rw [if_neg hid]
      by_cases hrn : r.id = n
      · rw [List.find?_cons_of_pos _ (by simpa using hrn),
          List.find?_cons_of_pos _ (by simpa using hrn)]
      · rw [List.find?_cons_of_neg _ (by simpa using hrn),
          List.find?_cons_of_neg _ (by simpa using hrn)]
        exact ih (r.id :: seen) n
          (by simp only [List.mem_cons, not_or]; exact ⟨fun h => hrn h.symm, hn⟩)

/-- A list with pairwise-distinct, unseen ids passes through unchanged. -/
theorem keepFirst_of_fresh (l : List GitHubRepo) :
    ∀ seen, (∀ x ∈ l, x.id ∉ seen) → (l.map (·.id)).Nodup →
      keepFirst seen l = l := by
  induction l with
  | nil => intro seen _ _; rfl
  | cons r rest ih =>
    intro seen hfresh hnodup
    rw [keepFirst, if_neg (hfresh r (List.mem_cons_self r rest))]
    congr 1
    apply ih (r.id :: seen)
    · intro x hx
      simp only [List.mem_cons, not_or]
      refine ⟨?_, hfresh x (List.mem_cons_of_mem r hx)⟩
      intro hc
      have : r.id ∈ rest.map (·.id) := hc ▸ List.mem_map_of_mem (·.id) hx
      simp only [List.map_cons, List.nodup_cons] at hnodup
      exact hnodup.1 this
    · simp only [List.map_cons, List.nodup_cons] at hnodup
      exact hnodup.2

/-- The output ids are pairwise distinct. -/
theorem keepFirst_ids_nodup (l : List GitHubRepo) :
    ∀ seen, ((keepFirst seen l).map (·.id)).Nodup := by
  induction l with
  | nil => intro seen; simp [keepFirst]
  | cons r rest ih =>
    intro seen
    rw [keepFirst]
    by_cases hid : r.id ∈ seen
    · rw [if_pos hid]; exact ih seen
    · rw [if_neg hid]
      simp only [List.map_cons, List.nodup_cons]
      refine ⟨?_, ih (r.id :: seen)⟩
      intro hc
      rcases List.mem_map.mp hc with ⟨x, hx, hxid⟩
      exact keepFirst_id_not_seen rest (r.id :: seen) x hx
        (by simp [hxid])

/-- `searchGitHub` is `deduplicate` applied to the successful responses in
query order (a failed query contributes nothing). -/
theorem searchGitHub_eq_deduplicate (queries : List String)
    (respond : String → Except Unit (List GitHubRepo)) :
    searchGitHub queries respond =
      deduplicate (queries.filterMap (fun q => (respond q).toOption)) := by
  suffices h : ∀ (qs : List String) (acc : List GitHubRepo),
      qs.foldl (fun acc query =>
        match respond query with
        | .error _ => acc
        | .ok items => dedupInto acc items) acc =
      (qs.filterMap (fun q => (respond q).toOption)).foldl dedupInto acc by
    exact h queries []
  intro qs
  induction qs with
  | nil => intro acc; rfl
  | cons q rest ih =>
    intro acc
    rw [List.foldl_cons, List.filterMap_cons]
    cases hq : respond q with
    | error e => simp only [Except.toOption, ih]
    | ok items => simp only [Except.toOption, List.foldl_cons, ih]

/-- C9: the Deduplicator is idempotent — running it on its own output (as
the single result sequence) changes nothing — and an identity appearing in
several input sequences appears exactly once in the output, namely as the
first occurrence in (query order, within-query order); the output is a
subsequence of the flattened input, so relative positions are preserved;
and `searchGitHub` is exactly this Deduplicator applied to the successful
per-query responses. -/
theorem deduplicate_first_seen_unique :
    (∀ rss : List (List GitHubRepo), deduplicate [deduplicate rss] = deduplicate rss) ∧
    (∀ rss : List (List GitHubRepo), List.Sublist (deduplicate rss) rss.flatten) ∧
    (∀ (rss : List (List GitHubRepo)) (r : GitHubRepo), r ∈ rss.flatten →
      ((deduplicate rss).filter (fun x => x.id == r.id)).length = 1 ∧
      (deduplicate rss).find? (fun x => x.id == r.id) =
        rss.flatten.find? (fun x => x.id == r.id)) ∧
    (∀ (queries : List String) (respond : String → Except Unit (List GitHubRepo)),
      searchGitHub queries respond =
        deduplicate (queries.filterMap (fun q => (respond q).toOption))) := by
  refine ⟨?_, ?_, ?_, searchGitHub_eq_deduplicate⟩
  · intro rss
    have h1 := deduplicate_eq_keepFirst [deduplicate rss]
    have h2 := deduplicate_eq_keepFirst rss
    rw [h1, h2]
    simp only [List.flatten_cons, List.flatten_nil, List.append_nil]
    exact keepFirst_of_fresh _ [] (by simp) (keepFirst_ids_nodup _ [])
  · intro rss
    rw [deduplicate_eq_keepFirst]
    exact keepFirst_sublist _ []
  · intro rss r hr
    rw [deduplicate_eq_keepFirst]
    exact ⟨keepFirst_count_one _ [] r.id (by simp) ⟨r, hr, rfl⟩,
      keepFirst_find? _ [] r.id (by simp)⟩

theorem deduplicate_first_seen_unique_witness :
    ((deduplicate
        [[⟨1, "octo", "a", "octo/a", none, 9, none, 0, "u1"⟩,
          ⟨2, "octo", "b", "octo/b", none, 8, none, 0, "u2"⟩],
         [⟨1, "octo", "a", "octo/a", none, 9, none, 0, "u1"⟩,
          ⟨3, "octo", "c", "octo/c", none, 7, none, 0, "u3"⟩]]).filter
        (fun x => x.id == 1)).length = 1 ∧
    (deduplicate
        [[⟨1, "octo", "a", "octo/a", none, 9, none, 0, "u1"⟩,
          ⟨2, "octo", "b", "octo/b", none, 8, none, 0, "u2"⟩],
         [⟨1, "octo", "a", "octo/a", none, 9, none, 0, "u1"⟩,
          ⟨3, "octo", "c", "octo/c", none, 7, none, 0, "u3"⟩]]).find?
        (fun x => x.id == 1) =
      ([[⟨1, "octo", "a", "octo/a", none, 9, none, 0, "u1"⟩,
          ⟨2, "octo", "b", "octo/b", none, 8, none, 0, "u2"⟩],
        [⟨1, "octo", "a", "octo/a", none, 9, none, 0, "u1"⟩,
          ⟨3, "octo", "c", "octo/c", none, 7, none, 0, "u3"⟩]] :
        List (List GitHubRepo)).flatten.find? (fun x => x.id == 1) :=
  deduplicate_first_seen_unique.2.2.1
    [[⟨1, "octo", "a", "octo/a", none, 9, none, 0, "u1"⟩,
      ⟨2, "octo", "b", "octo/b", none, 8, none, 0, "u2"⟩],
     [⟨1, "octo", "a", "octo/a", none, 9, none, 0, "u1"⟩,
      ⟨3, "octo", "c", "octo/c", none, 7, none, 0, "u3"⟩]]
    ⟨1, "octo", "a", "octo/a", none, 9, none, 0, "u1"⟩ (by decide)
